import Mathlib

/-!
Verification of the analytics_erp schema/relationship inference pipeline.

The definitions below are a shallow embedding of the Python sources:
relationship_miner.py (RelationshipMiner), schema_analyzer.py
(ERPSchemaAnalyzer.count_rows), data_loader.py (ERPDataLoader:
row counting, filter application), data_loader_helper.py
(DataHelper.detect_column_semantic_type) and diagram_generator.py
(ERDiagramGenerator.build_graph).

Modelling conventions:
* Python dictionaries are association lists in insertion order; optional
  dictionary keys become Option fields read with getD, mirroring dict.get
  with its default.
* Every float literal in this program is an exact multiple of 0.01
  (0.9, 0.8, 0.7, 0.6, 0.5, 0.4, 0.3, 0.15, 0.1, 1.0), and the program
  only adds such constants, takes min, and compares; on these values IEEE
  double arithmetic is exact and order-isomorphic to integer arithmetic
  on hundredths. A confidence float x is therefore modelled as the
  integer 100 * x, so 0.8 becomes 80 and the clamp bound 1.0 becomes 100.
* The Python substring test `p in s` is the function pyIn; str.lower is
  strToLower (ASCII case folding, which agrees with Python on every
  string the analyzed code compares).
-/

namespace AnalyticsERP

/-- ASCII lowering of one character, as str.lower acts on A-Z. -/
def lowerChar (c : Char) : Char :=
  if 65 ≤ c.toNat ∧ c.toNat ≤ 90 then Char.ofNat (c.toNat + 32) else c

/-- str.lower restricted to ASCII letters. -/
def strToLower (s : String) : String := ⟨s.data.map lowerChar⟩

/-- Tests whether the first list is an initial segment of the second. -/
def listStarts : List Char → List Char → Bool
  | [], _ => true
  | _ :: _, [] => false
  | p :: ps, h :: hs => p == h && listStarts ps hs

/-- Tests whether the first list occurs contiguously inside the second. -/
def listHasSub (pat : List Char) : List Char → Bool
  | [] => pat.isEmpty
  | h :: hs => listStarts pat (h :: hs) || listHasSub pat hs

/-- The Python expression `pat in hay` on strings: substring containment. -/
def pyIn (pat hay : String) : Bool :=
  listHasSub pat.toList hay.toList

/-- One entry of ERPSchemaAnalyzer.tables_info. An errored scan stores only
file_path and error, so reading absent keys yields the defaults used by
dict.get in the miner: columns [] and total_rows 0. -/
structure TableInfo where
  columns : List String := []
  total_rows : Int := 0
  error : Option String := none
deriving DecidableEq

/-- tables_info: a Python dict in insertion order, table name to info. -/
abbrev TablesInfo := List (String × TableInfo)

/-- A candidate relationship dict. Every key is optional because the
producers populate different subsets; dict.get supplies the defaults.
Confidence is in hundredths (90 means 0.9). -/
structure Relationship where
  source_table : Option String := none
  source_column : Option String := none
  target_table : Option String := none
  relationship_column : Option String := none
  relationship_type : Option String := none
  confidence : Option Int := none
  evidence : Option String := none
deriving DecidableEq

/-- The column-name patterns built from another table name in
RelationshipMiner._find_relationships_by_naming. -/
def namingPatterns (other : String) : List String :=
  [other ++ "id", "id" ++ other, other ++ "_id", "id_" ++ other,
   "cod" ++ other, other ++ "cod"]

/-- RelationshipMiner._find_relationships_by_naming: for every table, every
column and every other table, emit a relationship when the lowered column
name contains one of the patterns built from the lowered other name. -/
def findRelationshipsByNaming (ti : TablesInfo) : List Relationship :=
  ti.flatMap fun p =>
    p.2.columns.flatMap fun column =>
      ti.flatMap fun q =>
        if q.1 = p.1 then []
        else if (namingPatterns (strToLower q.1)).any
            (fun pat => pyIn pat (strToLower column)) then
          [{ source_table := some p.1, source_column := some column,
             target_table := some q.1,
             relationship_type := some "foreign_key_by_name",
             evidence := some ("Nome da coluna " ++ column ++
               " referencia tabela " ++ q.1) }]
        else []

/-- One entry of the erp_patterns dict of
RelationshipMiner._find_relationships_by_erp_patterns. Confidence in
hundredths. -/
structure ErpRule where
  table1 : String
  table2 : String
  column_pattern : String
  confidence : Int
deriving DecidableEq

/-- The erp_patterns dict, in insertion order. -/
def erpPatterns : List ErpRule :=
  [⟨"cliente", "pedido", "cliente", 90⟩,
   ⟨"cliente", "venda", "cliente", 90⟩,
   ⟨"cliente", "notafiscal", "cliente", 80⟩,
   ⟨"produto", "pedidoitem", "produto", 90⟩,
   ⟨"produto", "item", "produto", 90⟩,
   ⟨"produto", "estoque", "produto", 80⟩,
   ⟨"fornecedor", "compra", "fornecedor", 90⟩,
   ⟨"fornecedor", "notafiscalcompra", "fornecedor", 80⟩,
   ⟨"vendedor", "venda", "vendedor", 80⟩,
   ⟨"funcionario", "folha", "funcionario", 90⟩,
   ⟨"contabanco", "lancamento", "conta", 80⟩,
   ⟨"planoconta", "lancamento", "planoconta", 80⟩]

/-- Inserting into a Python dict: an existing key keeps its position but
takes the new value, a new key is appended. -/
def dictInsert (m : List (String × String)) (k v : String) :
    List (String × String) :=
  if m.any (fun p => p.1 == k) then
    m.map (fun p => if p.1 == k then (k, v) else p)
  else m ++ [(k, v)]

/-- The dict comprehension building table_names_lower: lowered name to
original name. -/
def tableNamesLower (names : List String) : List (String × String) :=
  names.foldl (fun m n => dictInsert m (strToLower n) n) []

/-- Dictionary lookup tables_info[name], with the empty info as fallback
(dict.get semantics for the inner keys). -/
def getInfo (ti : TablesInfo) (name : String) : TableInfo :=
  ((ti.find? (fun p => p.1 == name)).map Prod.snd).getD {}

/-- RelationshipMiner._find_relationships_by_erp_patterns. -/
def findRelationshipsByErpPatterns (ti : TablesInfo) : List Relationship :=
  let tmap := tableNamesLower (ti.map Prod.fst)
  erpPatterns.flatMap fun rule =>
    let m1 := tmap.filterMap fun p => if pyIn rule.table1 p.1 then some p.2 else none
    let m2 := tmap.filterMap fun p => if pyIn rule.table2 p.1 then some p.2 else none
    m1.flatMap fun t1 =>
      m2.flatMap fun t2 =>
        if t1 = t2 then []
        else
          (getInfo ti t2).columns.flatMap fun column =>
            if pyIn (strToLower rule.column_pattern) (strToLower column) then
              [{ source_table := some t2, target_table := some t1,
                 relationship_column := some column,
                 relationship_type := some "erp_pattern",
                 confidence := some rule.confidence,
                 evidence := some ("Padrao ERP: " ++ t2 ++ "." ++ column ++
                   " -> " ++ t1) }]
            else []

/-- The master_keywords list of RelationshipMiner._identify_key_tables. -/
def masterKeywords : List String :=
  ["cliente", "produto", "fornecedor", "funcionario",
   "vendedor", "cidade", "estado", "pais"]

/-- Value stored per table by RelationshipMiner._identify_key_tables. -/
structure KeyTableInfo where
  score : Nat
  ktype : String
deriving DecidableEq

/-- RelationshipMiner._identify_key_tables: score 3 for a master keyword in
the lowered table name, 2 for a row count strictly between 100 and
1000000; only positive scores are recorded, type master iff score >= 3. -/
def identifyKeyTables (ti : TablesInfo) : List (String × KeyTableInfo) :=
  ti.filterMap fun p =>
    let s1 : Nat :=
      if masterKeywords.any (fun k => pyIn k (strToLower p.1)) then 3 else 0
    let s2 : Nat := if 100 < p.2.total_rows ∧ p.2.total_rows < 1000000 then 2 else 0
    let score := s1 + s2
    if score > 0 then
      some (p.1, ⟨score, if 3 ≤ score then "master" else "transaction"⟩)
    else none

/-- The evidence_weights dict of RelationshipMiner._calculate_confidence,
read with dict.get and default 0.4 (in hundredths: 40). -/
def evidenceWeight (relType : String) : Int :=
  if relType = "foreign_key_by_name" then 80
  else if relType = "erp_pattern" then 70
  else if relType = "data_overlap" then 60
  else if relType = "implicit" then 40
  else 40

/-- RelationshipMiner._calculate_confidence: type base weight, +0.15 when
the relationship_column contains an id/cod/key/ref fragment, +0.1 when the
target table is identified as a master key table, capped at 1.0 (here all
in hundredths). -/
def calculateConfidence (ti : TablesInfo) (rel : Relationship) : Int :=
  let base := evidenceWeight (rel.relationship_type.getD "implicit")
  let column := strToLower (rel.relationship_column.getD "")
  let idBonus : Int :=
    if (["id", "cod", "key", "ref"] : List String).any (fun pat => pyIn pat column)
    then 15 else 0
  let target := rel.target_table.getD ""
  let masterBonus : Int :=
    match (identifyKeyTables ti).find? (fun p => p.1 == target) with
    | some p => if p.2.ktype = "master" then 10 else 0
    | none => 0
  min (base + idBonus + masterBonus) 100

/-- The dedup key of RelationshipMiner._deduplicate_relationships:
only (source_table, target_table). -/
def relKey (rel : Relationship) : Option String × Option String :=
  (rel.source_table, rel.target_table)

/-- The loop of _deduplicate_relationships, with the seen set made
explicit: keep a relationship iff its key has not been seen. -/
def dedupAux (seen : List (Option String × Option String)) :
    List Relationship → List Relationship
  | [] => []
  | r :: rs =>
    if relKey r ∈ seen then dedupAux seen rs
    else r :: dedupAux (relKey r :: seen) rs

/-- RelationshipMiner._deduplicate_relationships. -/
def deduplicateRelationships (rels : List Relationship) : List Relationship :=
  dedupAux [] rels

/-- RelationshipMiner.mine_relationships: naming detector output, then erp
pattern output, then the (empty) data detector output; deduplicate; then
overwrite the confidence of every survivor. -/
def mineRelationships (ti : TablesInfo) : List Relationship :=
  let allRels := findRelationshipsByNaming ti ++ findRelationshipsByErpPatterns ti ++ []
  let uniq := deduplicateRelationships allRels
  uniq.map fun r => { r with confidence := some (calculateConfidence ti r) }

/-- Edge attributes set by RelationshipMiner.build_relationship_graph. -/
structure MinerEdgeData where
  weight : Int
  column : String
  etype : String
deriving DecidableEq

/-- A networkx DiGraph as used by the miner: nodes and edges in insertion
order, at most one edge per ordered node pair. -/
structure MinerGraph where
  nodes : List String := []
  edges : List (String × String × MinerEdgeData) := []
deriving DecidableEq

/-- networkx add_node: appends a fresh node, keeps an existing one. -/
def addNode (g : MinerGraph) (n : String) : MinerGraph :=
  if n ∈ g.nodes then g else { g with nodes := g.nodes ++ [n] }

/-- networkx add_edge: adds missing endpoints as nodes, then inserts the
edge, overwriting the attributes of an existing parallel edge. -/
def addEdge (g : MinerGraph) (u v : String) (d : MinerEdgeData) : MinerGraph :=
  let g := addNode (addNode g u) v
  if g.edges.any (fun e => e.1 == u && e.2.1 == v) then
    { g with edges := g.edges.map fun e =>
        if e.1 == u && e.2.1 == v then (u, v, d) else e }
  else { g with edges := g.edges ++ [(u, v, d)] }

/-- RelationshipMiner.build_relationship_graph: one edge per relationship
with confidence strictly above 0.3 (30 in hundredths). -/
def buildRelationshipGraph (rels : List Relationship) : MinerGraph :=
  rels.foldl
    (fun g rel =>
      if rel.confidence.getD 0 > 30 then
        addEdge g (rel.source_table.getD "") (rel.target_table.getD "")
          ⟨rel.confidence.getD 0, rel.relationship_column.getD "",
           rel.relationship_type.getD "unknown"⟩
      else g)
    {}

/-- One suggestion dict returned by RelationshipMiner.suggest_joins. -/
structure JoinSuggestion where
  jtype : String
  confidence : Int
  column : Option String := none
  direction : Option String := none
  path : Option String := none
  suggestion : Option String := none
deriving DecidableEq

/-- Textual form of an optional table name, as Python f-strings render
None. -/
def showOptTable : Option String → String
  | some s => s
  | none => "None"

/-- The direct-relationship scan of RelationshipMiner.suggest_joins. -/
def directSuggestions (rels : List Relationship) (t1 t2 : String) :
    List JoinSuggestion :=
  rels.filterMap fun rel =>
    if (rel.source_table == some t1 && rel.target_table == some t2) ||
       (rel.source_table == some t2 && rel.target_table == some t1) then
      some { jtype := "direct", confidence := rel.confidence.getD 0,
             column := some (rel.relationship_column.getD ""),
             direction := some (showOptTable rel.source_table ++ " -> " ++
               showOptTable rel.target_table) }
    else none

/-- Successors of a node in adjacency (insertion) order. -/
def successors (g : MinerGraph) (u : String) : List String :=
  g.edges.filterMap fun e => if e.1 == u then some e.2.1 else none

/-- Edge existence test. -/
def hasEdge (g : MinerGraph) (u v : String) : Bool :=
  g.edges.any fun e => e.1 == u && e.2.1 == v

/-- The indirect branch of suggest_joins:
nx.all_simple_paths(graph, t1, t2, cutoff=2) filtered to length-3 paths,
that is directed simple paths t1 -> x -> t2. A missing endpoint raises
inside the try block and yields no suggestions, and a source equal to the
target yields no simple path. -/
def indirectSuggestions (g : MinerGraph) (t1 t2 : String) :
    List JoinSuggestion :=
  if t1 ∈ g.nodes ∧ t2 ∈ g.nodes ∧ t1 ≠ t2 then
    ((successors g t1).filter fun x => x != t1 && x != t2 && hasEdge g x t2).map
      fun x =>
        { jtype := "indirect", confidence := 50,
          path := some (t1 ++ " -> " ++ x ++ " -> " ++ t2),
          suggestion := some ("Junte " ++ t1 ++ " com " ++ x ++
            ", depois com " ++ t2) }
  else []

/-- Stable insertion of a suggestion into a list sorted by descending
confidence: the new element goes before later elements of equal
confidence, matching Python sorted(key=confidence, reverse=True). -/
def insertDesc (x : JoinSuggestion) : List JoinSuggestion → List JoinSuggestion
  | [] => [x]
  | y :: ys =>
    if y.confidence ≤ x.confidence then x :: y :: ys else y :: insertDesc x ys

/-- Stable sort by descending confidence. -/
def sortByConfidenceDesc : List JoinSuggestion → List JoinSuggestion
  | [] => []
  | x :: xs => insertDesc x (sortByConfidenceDesc xs)

/-- RelationshipMiner.suggest_joins over the mined relationship list and
the relationship graph: direct matches first, the indirect path search
only when no direct match exists, then the final descending sort. -/
def suggestJoins (rels : List Relationship) (g : MinerGraph) (t1 t2 : String) :
    List JoinSuggestion :=
  let suggestions := directSuggestions rels t1 t2
  let suggestions :=
    if suggestions.isEmpty then indirectSuggestions g t1 t2 else suggestions
  sortByConfidenceDesc suggestions

/-- Edge attributes set by ERDiagramGenerator.build_graph: label is the
relationship column, confidence in hundredths, the type string. -/
structure DiagramEdgeData where
  label : String
  confidence : Int
  etype : String
deriving DecidableEq

/-- The diagram graph: networkx DiGraph whose node identifiers are the
Python values passed to add_node/add_edge (a table name or None) and
whose nodes may carry a size attribute. -/
structure DiagramGraph where
  nodes : List (Option String × Option Int) := []
  edges : List (Option String × Option String × DiagramEdgeData) := []
deriving DecidableEq

/-- networkx add_node with a size attribute: a new node is appended, an
existing node keeps its position and takes the new attribute value. -/
def dgAddNodeSized (g : DiagramGraph) (n : Option String) (size : Int) :
    DiagramGraph :=
  if g.nodes.any (fun p => p.1 == n) then
    { g with nodes := g.nodes.map fun p => if p.1 == n then (n, some size) else p }
  else { g with nodes := g.nodes ++ [(n, some size)] }

/-- Node insertion performed implicitly by add_edge: a missing endpoint is
appended without attributes, an existing one is left untouched. -/
def dgAddNodePlain (g : DiagramGraph) (n : Option String) : DiagramGraph :=
  if g.nodes.any (fun p => p.1 == n) then g
  else { g with nodes := g.nodes ++ [(n, none)] }

/-- networkx add_edge on the diagram graph. -/
def dgAddEdge (g : DiagramGraph) (u v : Option String) (d : DiagramEdgeData) :
    DiagramGraph :=
  let g := dgAddNodePlain (dgAddNodePlain g u) v
  if g.edges.any (fun e => e.1 == u && e.2.1 == v) then
    { g with edges := g.edges.map fun e =>
        if e.1 == u && e.2.1 == v then (u, v, d) else e }
  else { g with edges := g.edges ++ [(u, v, d)] }

/-- ERDiagramGenerator.build_graph: every profiled table becomes a node
with size = total_rows, then every relationship at or above
min_confidence becomes an edge (min_confidence in hundredths). -/
def buildGraph (ti : TablesInfo) (rels : List Relationship)
    (min_confidence : Int) : DiagramGraph :=
  let g := ti.foldl (fun g p => dgAddNodeSized g (some p.1) p.2.total_rows) {}
  rels.foldl
    (fun g rel =>
      if min_confidence ≤ rel.confidence.getD 0 then
        dgAddEdge g rel.source_table rel.target_table
          ⟨rel.relationship_column.getD "", rel.confidence.getD 0,
           rel.relationship_type.getD ""⟩
      else g)
    g

/-- The three characters Python compares f.read(3) against when probing
for a byte-order mark in text mode. -/
def bomMarker : List Char := [Char.ofNat 0xEF, Char.ofNat 0xBB, Char.ofNat 0xBF]

/-- ERPSchemaAnalyzer.count_rows: none models a read that raises (the
function returns -1), some cs a successfully read character stream; after
the BOM probe the newline characters are counted and one is subtracted
for the header unless the count is zero. -/
def count_rows : Option (List Char) → Int
  | none => -1
  | some cs =>
    let body := if cs.take 3 = bomMarker then cs.drop 3 else cs
    let count : Nat := body.count '\n'
    if count > 0 then (count : Int) - 1 else 0

/-- The number of lines Python iteration `for line in f` yields: one line
per newline character plus a final unterminated line if any. -/
def numLines (cs : List Char) : Nat :=
  if cs.isEmpty then 0
  else cs.count '\n' + (if cs.getLast? == some '\n' then 0 else 1)

/-- ERPDataLoader._count_csv_rows_fast: when the external `wc -l` call
succeeds it returns max(newlines - 1, 0); otherwise the Python fallback
iterates lines after the BOM probe and returns the line count minus one,
with no lower clamp. -/
def countCsvRowsFast (wcAvailable : Bool) (cs : List Char) : Int :=
  if wcAvailable then
    max ((cs.count '\n' : Int) - 1) 0
  else
    let body := if cs.take 3 = bomMarker then cs.drop 3 else cs
    (numLines body : Int) - 1

/-- A filter condition value as ERPDataLoader._apply_filters distinguishes
them: a Python tuple (of any length), a list, or a scalar. -/
inductive FilterCond (V : Type) where
  | tup : List V → FilterCond V
  | lst : List V → FilterCond V
  | scalar : V → FilterCond V
deriving DecidableEq

/-- Whether one row value passes one condition, following the branches of
_apply_filters: a 2-tuple is an inclusive range, a tuple of any other
length applies no restriction, a list is membership, anything else is
equality. -/
def condKeep {V : Type} [LinearOrder V] : FilterCond V → V → Bool
  | .tup l, v =>
    match l with
    | [lo, hi] => decide (lo ≤ v) && decide (v ≤ hi)
    | _ => true
  | .lst vs, v => decide (v ∈ vs)
  | .scalar s, v => decide (v = s)

/-- A dataframe: column names and rows, a row valuing every column name. -/
structure DataFrame (V : Type) where
  cols : List String
  rows : List (String → V)

/-- ERPDataLoader._apply_filters: fold over the filter items in order,
filtering the rows for a condition whose column exists and silently
skipping a condition whose column is absent. -/
def applyFilters {V : Type} [LinearOrder V] (df : DataFrame V)
    (filters : List (String × FilterCond V)) : DataFrame V :=
  filters.foldl
    (fun d f =>
      if f.1 ∈ d.cols then
        { d with rows := d.rows.filter fun r => condKeep f.2 (r f.1) }
      else d)
    df

/-- The id_patterns list of DataHelper.detect_column_semantic_type. -/
def idPatterns : List String :=
  ["id", "cod", "code", "key", "numero", "num", "nro", "chave"]

/-- The date_patterns list. -/
def datePatterns : List String :=
  ["data", "date", "dt_", "hora", "time", "periodo"]

/-- The money_patterns list. -/
def moneyPatterns : List String :=
  ["valor", "preco", "custo", "total", "vlr", "venda", "compra",
   "desconto", "acrescimo", "lucro", "prejuizo"]

/-- The quantity patterns list. -/
def qtyPatterns : List String :=
  ["quantidade", "qtd", "qtde", "estoque", "saldo", "peso",
   "volume", "medida"]

/-- The boolean-token vocabulary tested with issubset. -/
def booleanVocab : List String :=
  ["0", "1", "true", "false", "sim", "não", "yes", "no"]

/-- pandas Series.unique on the non-null values: distinct values in order
of first appearance. -/
def uniqueVals (vs : List String) : List String :=
  vs.foldl (fun acc v => if v ∈ acc then acc else acc ++ [v]) []

/-- DataHelper.detect_column_semantic_type. Sample values are optional
strings, none being a null; toNumericOk models pandas to_numeric
success on one value. -/
def detectColumnSemanticType (toNumericOk : String → Bool)
    (columnName : String) (sampleData : List (Option String)) : String :=
  let colNameLower := strToLower columnName
  if idPatterns.any (fun p => pyIn p colNameLower) then "id"
  else if datePatterns.any (fun p => pyIn p colNameLower) then "date"
  else if moneyPatterns.any (fun p => pyIn p colNameLower) then "currency"
  else if qtyPatterns.any (fun p => pyIn p colNameLower) then "quantity"
  else if sampleData.length > 0 then
    let nonNull := sampleData.filterMap id
    let uniq := uniqueVals nonNull
    if uniq.length ≤ 3 ∧ (uniq.all fun v => strToLower v ∈ booleanVocab) then
      "boolean"
    else if uniq.length < 20 then "categorical"
    else if 10 * (nonNull.countP fun v => toNumericOk v) >
        7 * sampleData.length then "numeric"
    else "text"
  else "text"

/-! ### General lemmas about the miner pipeline -/

theorem relKey_withConfidence (r : Relationship) (c : Option Int) :
    relKey { r with confidence := c } = relKey r := rfl

theorem mem_of_mem_dedupAux {seen : List (Option String × Option String)}
    {rels : List Relationship} {r : Relationship}
    (h : r ∈ dedupAux seen rels) : r ∈ rels := by
  induction rels generalizing seen with
  | nil => simp [dedupAux] at h
  | cons a as ih =>
    by_cases hk : relKey a ∈ seen
    · simp only [dedupAux, if_pos hk] at h
      exact List.mem_cons_of_mem _ (ih h)
    · simp only [dedupAux, if_neg hk, List.mem_cons] at h
      rcases h with h | h
      · exact h ▸ List.mem_cons_self _ _
      · exact List.mem_cons_of_mem _ (ih h)

theorem dedupAux_find? {rels : List Relationship} :
    ∀ {seen : List (Option String × Option String)}
      (k : Option String × Option String), k ∉ seen →
      (dedupAux seen rels).find? (fun r => decide (relKey r = k)) =
        rels.find? (fun r => decide (relKey r = k)) := by
  induction rels with
  | nil => intro seen k _; rfl
  | cons a as ih =>
    intro seen k hk
    simp only [dedupAux]
    by_cases hm : relKey a ∈ seen
    · have hne : ¬(relKey a = k) := fun h => hk (h ▸ hm)
      rw [if_pos hm, List.find?_cons_of_neg _ (by simpa using hne)]
      exact ih k hk
    · rw [if_neg hm]
      by_cases he : relKey a = k
      · rw [List.find?_cons_of_pos _ (by simpa using he),
          List.find?_cons_of_pos _ (by simpa using he)]
      · rw [List.find?_cons_of_neg _ (by simpa using he),
          List.find?_cons_of_neg _ (by simpa using he)]
        exact ih k (by
          simp only [List.mem_cons, not_or]
          exact ⟨fun h => he h.symm, hk⟩)

theorem dedupAux_keys_nodup {rels : List Relationship} :
    ∀ seen : List (Option String × Option String),
      ((dedupAux seen rels).map relKey).Nodup ∧
      ∀ k ∈ (dedupAux seen rels).map relKey, k ∉ seen := by
  induction rels with
  | nil => intro seen; simp [dedupAux]
  | cons a as ih =>
    intro seen
    by_cases hm : relKey a ∈ seen
    · simpa [dedupAux, if_pos hm] using ih seen
    · have h2 := ih (relKey a :: seen)
      constructor
      · simp only [dedupAux, if_neg hm, List.map_cons, List.nodup_cons]
        refine ⟨fun hmem => ?_, h2.1⟩
        exact (h2.2 _ hmem) (List.mem_cons_self _ _)
      · intro k hk
        simp only [dedupAux, if_neg hm, List.map_cons, List.mem_cons] at hk
        rcases hk with hk | hk
        · exact hk ▸ hm
        · exact fun hs => (h2.2 k hk) (List.mem_cons_of_mem _ hs)

theorem mineRelationships_eq (ti : TablesInfo) :
    mineRelationships ti =
      (deduplicateRelationships
        (findRelationshipsByNaming ti ++ findRelationshipsByErpPatterns ti)).map
        (fun r => { r with confidence := some (calculateConfidence ti r) }) := by
  simp [mineRelationships]

theorem assoc_snd_unique :
    ∀ {ti : TablesInfo}, (ti.map Prod.fst).Nodup →
      ∀ {t : String} {a b : TableInfo}, (t, a) ∈ ti → (t, b) ∈ ti → a = b := by
  intro ti
  induction ti with
  | nil => intro _ t a b ha; simp at ha
  | cons p ps ih =>
    intro h t a b ha hb
    simp only [List.map_cons, List.nodup_cons] at h
    rcases List.mem_cons.1 ha with ha | ha <;> rcases List.mem_cons.1 hb with hb | hb
    · exact congrArg Prod.snd (ha.trans hb.symm)
    · exact absurd (List.mem_map.2 ⟨(t, b), hb, show t = p.1 from congrArg Prod.fst ha⟩) h.1
    · exact absurd (List.mem_map.2 ⟨(t, a), ha, show t = p.1 from congrArg Prod.fst hb⟩) h.1
    · exact ih h.2 ha hb

theorem getInfo_eq {ti : TablesInfo} {t : String} {info : TableInfo}
    (h : (ti.map Prod.fst).Nodup) (hm : (t, info) ∈ ti) :
    getInfo ti t = info := by
  have hsome : (ti.find? fun p => p.1 == t).isSome :=
    List.find?_isSome.2 ⟨(t, info), hm, by simp⟩
  obtain ⟨q, hq⟩ := Option.isSome_iff_exists.1 hsome
  have hq1 : q.1 = t := by simpa using List.find?_some hq
  have hqm : (t, q.2) ∈ ti := by
    have := List.mem_of_find?_eq_some hq
    rwa [show q = (t, q.2) from Prod.ext hq1 rfl] at this
  have : q.2 = info := assoc_snd_unique h hqm hm
  simp [getInfo, hq, this]

theorem source_of_mem_naming {ti : TablesInfo} {r : Relationship}
    (h : r ∈ findRelationshipsByNaming ti) :
    ∃ p ∈ ti, r.source_table = some p.1 ∧ p.2.columns ≠ [] := by
  simp only [findRelationshipsByNaming, List.mem_flatMap] at h
  obtain ⟨p, hp, col, hcol, q, hq, h⟩ := h
  refine ⟨p, hp, ?_, fun hnil => by simp [hnil] at hcol⟩
  split_ifs at h with h1 h2
  · simp at h
  · simp only [List.mem_singleton] at h
    subst h; rfl
  · simp at h

theorem source_of_mem_erp {ti : TablesInfo} {r : Relationship}
    (h : r ∈ findRelationshipsByErpPatterns ti) :
    ∃ t2 : String, r.source_table = some t2 ∧ (getInfo ti t2).columns ≠ [] := by
  simp only [findRelationshipsByErpPatterns, List.mem_flatMap] at h
  obtain ⟨rule, _, t1, _, t2, _, h⟩ := h
  refine ⟨t2, ?_⟩
  split_ifs at h with h1
  · simp at h
  · simp only [List.mem_flatMap] at h
    obtain ⟨col, hcol, h⟩ := h
    split_ifs at h with h2
    · simp only [List.mem_singleton] at h
      subst h
      exact ⟨rfl, fun hnil => by simp [hnil] at hcol⟩
    · simp at h

theorem source_of_mem_mine {ti : TablesInfo} {r : Relationship}
    (hr : r ∈ mineRelationships ti) :
    ∃ r0, (r0 ∈ findRelationshipsByNaming ti ∨ r0 ∈ findRelationshipsByErpPatterns ti) ∧
      r = { r0 with confidence := some (calculateConfidence ti r0) } := by
  rw [mineRelationships_eq] at hr
  obtain ⟨r0, hr0, rfl⟩ := List.mem_map.1 hr
  exact ⟨r0, List.mem_append.1 (mem_of_mem_dedupAux hr0), rfl⟩

/-! ### Claim C1: the deduplication key -/

/-- Two tables where the naming detector fires twice between the same
ordered pair through two different columns. -/
def exC1 : TablesInfo :=
  [("Cliente", { columns := ["Nome"] }),
   ("Pedido", { columns := ["ClienteID", "CodCliente"] })]

/-- C1 counterexample: the claim says the dedup key is
(source_table, target_table, relationship_column), so the two naming hits
Pedido.ClienteID -> Cliente and Pedido.CodCliente -> Cliente would both
survive. In the code the key is (source_table, target_table) only: the
detectors produce two hits with distinct columns for this pair but the
merged output keeps a single relationship. -/
theorem c1_dedup_key_counterexample :
    (findRelationshipsByNaming exC1).map (fun r => r.source_column) =
      [some "ClienteID", some "CodCliente"] ∧
    (findRelationshipsByNaming exC1).map relKey =
      [(some "Pedido", some "Cliente"), (some "Pedido", some "Cliente")] ∧
    (mineRelationships exC1).length = 1 := by
  decide

/-- C1 amended: mine deduplicates the concatenated detector outputs
(naming first, then erp_pattern) by the key (source_table, target_table)
alone, keeping the first-seen entry per key, so at most one relationship
survives per ordered table pair and hits through different columns
between the same pair collapse into the first one. For every key the
survivor is exactly the first entry of the concatenated detector output
with that key, with its confidence recomputed after dedup. -/
theorem c1_dedup_key_amended (ti : TablesInfo) :
    ((mineRelationships ti).map relKey).Nodup ∧
    ∀ k : Option String × Option String,
      (mineRelationships ti).find? (fun r => decide (relKey r = k)) =
        ((findRelationshipsByNaming ti ++ findRelationshipsByErpPatterns ti).find?
          (fun r => decide (relKey r = k))).map
          (fun r => { r with confidence := some (calculateConfidence ti r) }) := by
  constructor
  · rw [mineRelationships_eq, List.map_map]
    have hcomp : (relKey ∘ fun r =>
        { r with confidence := some (calculateConfidence ti r) }) = relKey :=
      funext fun r => rfl
    rw [hcomp]
    exact (dedupAux_keys_nodup []).1
  · intro k
    rw [mineRelationships_eq, List.find?_map]
    have hcomp : ((fun r => decide (relKey r = k)) ∘ fun r =>
        { r with confidence := some (calculateConfidence ti r) }) =
        fun r => decide (relKey r = k) := funext fun r => rfl
    rw [hcomp, deduplicateRelationships, dedupAux_find? k (by simp)]

/-! ### Claim C2: tables in error state -/

/-- A profile set with an errored table (its profile has no columns, as
the analyzer produces) plus a valid table referencing it by name. -/
def exC2 : TablesInfo :=
  [("Cliente", { error := some "corrupt encoding" }),
   ("Pedido", { columns := ["ClienteID"] })]

/-- C2 counterexample: the claim says a table whose profile has error set
appears in no mined relationship as source nor as target. In the code
the detectors never look at the error field; the errored table Cliente
still appears as target_table of the naming hit Pedido.ClienteID ->
Cliente. -/
theorem c2_error_table_counterexample :
    (getInfo exC2 "Cliente").error = some "corrupt encoding" ∧
    (mineRelationships exC2).map (fun r => r.target_table) = [some "Cliente"] := by
  decide

/-- C2 amended: a table whose profile is in error state (and therefore
carries no columns key, as the analyzer writes it) contributes no mined
relationship as source_table, and mining runs to completion over the
whole profile set; it can however still appear as target_table, because
the detectors match targets by table name alone. -/
theorem c2_error_table_amended (ti : TablesInfo) (t : String) (info : TableInfo)
    (hkeys : (ti.map Prod.fst).Nodup) (hmem : (t, info) ∈ ti)
    (_herr : info.error.isSome) (hcols : info.columns = [])
    (r : Relationship) (hr : r ∈ mineRelationships ti) :
    r.source_table ≠ some t := by
  obtain ⟨r0, hall, rfl⟩ := source_of_mem_mine hr
  intro hsrc
  have hsrc0 : r0.source_table = some t := hsrc
  rcases hall with hna | herp
  · obtain ⟨p, hp, hps, hpc⟩ := source_of_mem_naming hna
    have hpt : p.1 = t := by
      have := hps.symm.trans hsrc0
      exact Option.some.inj this
    have hpi : p.2 = info := by
      refine assoc_snd_unique hkeys ?_ hmem
      rw [← hpt]
      exact (Prod.mk.eta ▸ hp : (p.1, p.2) ∈ ti)
    exact hpc (hpi ▸ hcols)
  · obtain ⟨t2, hts, htc⟩ := source_of_mem_erp herp
    have ht2 : t2 = t := Option.some.inj (hts.symm.trans hsrc0)
    exact htc (by rw [ht2, getInfo_eq hkeys hmem, hcols])

/-- The single relationship mined from exC2. -/
def exC2rel : Relationship :=
  { source_table := some "Pedido", source_column := some "ClienteID",
    target_table := some "Cliente",
    relationship_type := some "foreign_key_by_name",
    confidence := some 90,
    evidence := some "Nome da coluna ClienteID referencia tabela Cliente" }

/-- Witness for the amended C2 theorem at the concrete profile set exC2:
the errored table Cliente never occurs as source_table. -/
theorem c2_error_table_amended_witness :
    ((exC2.map Prod.fst).Nodup ∧
     ("Cliente", ({ error := some "corrupt encoding" } : TableInfo)) ∈ exC2 ∧
     exC2rel ∈ mineRelationships exC2) ∧
    exC2rel.source_table ≠ some "Cliente" :=
  ⟨⟨by decide, by decide, by decide⟩,
   c2_error_table_amended exC2 "Cliente" { error := some "corrupt encoding" }
     (by decide) (by decide) (by decide) (by decide) exC2rel (by decide)⟩

/-! ### Claim C3: the confidence formula -/

/-- The confidence formula exactly as the claim words it (in hundredths):
base by type with the erp rule base kept, +0.1 for an ID/code affix
contained in or ending the column, +0.1 for an ID/code affix starting
the column, +0.1 for a master-keyword target among cliente, produto,
fornecedor, funcionario, clamped to [0,1]. -/
def specClaimConfidence (rel : Relationship) : Int :=
  let base : Int :=
    if rel.relationship_type = some "foreign_key_by_name" then 80
    else if rel.relationship_type = some "erp_pattern" then rel.confidence.getD 70
    else if rel.relationship_type = some "data_overlap" then 60
    else 40
  let col := strToLower (rel.relationship_column.getD "")
  let affixes : List String := ["id", "cod"]
  let b1 : Int := if affixes.any (fun a => pyIn a col) then 10 else 0
  let b2 : Int := if affixes.any (fun a => listStarts a.toList col.toList) then 10 else 0
  let b3 : Int :=
    if (["cliente", "produto", "fornecedor", "funcionario"] : List String).any
        (fun k => pyIn k (strToLower (rel.target_table.getD ""))) then 10 else 0
  min (max (base + b1 + b2 + b3) 0) 100

/-- Profiles producing a single erp_pattern relationship whose column
carries no id/cod/key/ref fragment, so the rule base matters. -/
def exC3 : TablesInfo :=
  [("Fornecedor", { columns := ["Nome"] }),
   ("Compra", { columns := ["MeuFornecedor"] })]

/-- The erp relationship the detectors emit for exC3, before rescoring. -/
def exC3rel : Relationship :=
  { source_table := some "Compra", target_table := some "Fornecedor",
    relationship_column := some "MeuFornecedor",
    relationship_type := some "erp_pattern", confidence := some 90,
    evidence := some "Padrao ERP: Compra.MeuFornecedor -> Fornecedor" }

/-- C3 counterexample: on exC3 the surviving relationship is the erp hit
with rule base 0.9 and a master target, so the claim formula yields 1.0;
the code discards the rule base, uses the flat erp weight 0.7 plus the
0.1 master bonus, and stores 0.8. -/
theorem c3_confidence_counterexample :
    deduplicateRelationships (findRelationshipsByNaming exC3 ++
      findRelationshipsByErpPatterns exC3) = [exC3rel] ∧
    mineRelationships exC3 = [{ exC3rel with confidence := some 80 }] ∧
    specClaimConfidence exC3rel = 100 ∧ (80 : Int) ≠ 100 := by
  decide

/-- The recomputed confidence as the code actually defines it, stated
independently of _calculate_confidence (in hundredths): base 0.8 for the
naming type, flat 0.7 for erp_pattern (the rule base is discarded), 0.6
for data_overlap, 0.4 otherwise; a single +0.15 bonus when the column
contains id, cod, key or ref anywhere; +0.1 when the target is a profiled
table whose name contains one of the eight master keywords; capped at
1.0. -/
def specAmendedConfidence (ti : TablesInfo) (rel : Relationship) : Int :=
  let base : Int :=
    if rel.relationship_type = some "foreign_key_by_name" then 80
    else if rel.relationship_type = some "erp_pattern" then 70
    else if rel.relationship_type = some "data_overlap" then 60
    else 40
  let col := strToLower (rel.relationship_column.getD "")
  let affixBonus : Int :=
    if (["id", "cod", "key", "ref"] : List String).any (fun a => pyIn a col)
    then 15 else 0
  let target := rel.target_table.getD ""
  let masterBonus : Int :=
    if target ∈ ti.map Prod.fst ∧
        masterKeywords.any (fun k => pyIn k (strToLower target)) = true
    then 10 else 0
  min (base + affixBonus + masterBonus) 100

theorem keyTables_ktype {ti : TablesInfo} {q : String × KeyTableInfo}
    (hq : q ∈ identifyKeyTables ti) :
    (q.2.ktype = "master" ↔
      masterKeywords.any (fun k => pyIn k (strToLower q.1)) = true) ∧
    q.1 ∈ ti.map Prod.fst := by
  simp only [identifyKeyTables, List.mem_filterMap] at hq
  obtain ⟨p, hp, hpq⟩ := hq
  have hmem : p.1 ∈ ti.map Prod.fst := List.mem_map.2 ⟨p, hp, rfl⟩
  by_cases hkw : masterKeywords.any (fun k => pyIn k (strToLower p.1)) = true
  · by_cases hrow : 100 < p.2.total_rows ∧ p.2.total_rows < 1000000
    · rw [if_pos hkw, if_pos hrow,
        if_pos (by norm_num : (3 : Nat) + 2 > 0),
        if_pos (by norm_num : (3 : Nat) ≤ 3 + 2)] at hpq
      obtain rfl := Option.some.inj hpq
      exact ⟨by simp [hkw], hmem⟩
    · rw [if_pos hkw, if_neg hrow,
        if_pos (by norm_num : (3 : Nat) + 0 > 0),
        if_pos (by norm_num : (3 : Nat) ≤ 3 + 0)] at hpq
      obtain rfl := Option.some.inj hpq
      exact ⟨by simp [hkw], hmem⟩
  · by_cases hrow : 100 < p.2.total_rows ∧ p.2.total_rows < 1000000
    · rw [if_neg hkw, if_pos hrow,
        if_pos (by norm_num : (0 : Nat) + 2 > 0),
        if_neg (by norm_num : ¬ (3 : Nat) ≤ 0 + 2)] at hpq
      obtain rfl := Option.some.inj hpq
      refine ⟨?_, hmem⟩
      simp only [hkw]
      exact iff_of_false (by simp) (by simp [hkw])
    · rw [if_neg hkw, if_neg hrow,
        if_neg (by norm_num : ¬ (0 : Nat) + 0 > 0)] at hpq
      exact absurd hpq (by simp)

theorem keyTables_exists {ti : TablesInfo} {t : String}
    (hmem : t ∈ ti.map Prod.fst)
    (hkw : masterKeywords.any (fun k => pyIn k (strToLower t)) = true) :
    ∃ q ∈ identifyKeyTables ti, q.1 = t := by
  obtain ⟨p, hp, hpt⟩ := List.mem_map.1 hmem
  subst hpt
  by_cases hrow : 100 < p.2.total_rows ∧ p.2.total_rows < 1000000
  · exact ⟨(p.1, ⟨5, "master"⟩), List.mem_filterMap.2 ⟨p, hp, by
      simp [identifyKeyTables, hkw, hrow]⟩, rfl⟩
  · exact ⟨(p.1, ⟨3, "master"⟩), List.mem_filterMap.2 ⟨p, hp, by
      simp [identifyKeyTables, hkw, hrow]⟩, rfl⟩

theorem masterBonus_eq (ti : TablesInfo) (t : String) :
    (match (identifyKeyTables ti).find? (fun p => p.1 == t) with
     | some p => if p.2.ktype = "master" then (10 : Int) else 0
     | none => 0) =
    (if t ∈ ti.map Prod.fst ∧
        masterKeywords.any (fun k => pyIn k (strToLower t)) = true
     then (10 : Int) else 0) := by
  cases hf : (identifyKeyTables ti).find? (fun p => p.1 == t) with
  | none =>
    rw [List.find?_eq_none] at hf
    have : ¬(t ∈ ti.map Prod.fst ∧
        masterKeywords.any (fun k => pyIn k (strToLower t)) = true) := by
      rintro ⟨h1, h2⟩
      obtain ⟨q, hq, hqt⟩ := keyTables_exists h1 h2
      exact hf q hq (by simp [hqt])
    rw [if_neg this]
  | some q =>
    have hqt : q.1 = t := by simpa using List.find?_some hf
    have hqm := List.mem_of_find?_eq_some hf
    obtain ⟨hiff, hkeys⟩ := keyTables_ktype hqm
    by_cases hm : q.2.ktype = "master"
    · have hkw := hiff.1 hm
      rw [hqt] at hkw hkeys
      simp [hm, hkw, hkeys]
    · have hkw : ¬ masterKeywords.any (fun k => pyIn k (strToLower t)) = true := by
        rw [← hqt]
        exact fun h => hm (hiff.2 h)
      simp [hm, hkw]

theorem calculateConfidence_eq_spec (ti : TablesInfo) (rel : Relationship) :
    calculateConfidence ti rel = specAmendedConfidence ti rel := by
  have hbase : evidenceWeight (rel.relationship_type.getD "implicit") =
      (if rel.relationship_type = some "foreign_key_by_name" then (80 : Int)
       else if rel.relationship_type = some "erp_pattern" then 70
       else if rel.relationship_type = some "data_overlap" then 60
       else 40) := by
    cases h : rel.relationship_type with
    | none => simp [evidenceWeight]
    | some s =>
      simp only [Option.getD, Option.some.injEq]
      unfold evidenceWeight
      split_ifs <;> rfl
  simp only [calculateConfidence, specAmendedConfidence]
  rw [hbase, masterBonus_eq ti (rel.target_table.getD "")]

theorem specAmendedConfidence_withConfidence (ti : TablesInfo)
    (r : Relationship) (c : Option Int) :
    specAmendedConfidence ti { r with confidence := c } =
      specAmendedConfidence ti r := rfl

/-- C3 amended: every relationship in the merged mining output carries
the recomputed confidence given by specAmendedConfidence: the actual base
weights (erp rule bases discarded), the single +0.15 contains-affix bonus
over id/cod/key/ref, the +0.1 profiled-master-keyword target bonus, and
the cap at 1.0 (values in hundredths). -/
theorem c3_confidence_amended (ti : TablesInfo) (r : Relationship)
    (hr : r ∈ mineRelationships ti) :
    r.confidence = some (specAmendedConfidence ti r) := by
  obtain ⟨r0, _, rfl⟩ := source_of_mem_mine hr
  show some (calculateConfidence ti r0) = _
  rw [specAmendedConfidence_withConfidence, calculateConfidence_eq_spec]

/-- Witness for the amended C3 theorem at the concrete profile set exC3. -/
theorem c3_confidence_amended_witness :
    ({ exC3rel with confidence := some 80 } ∈ mineRelationships exC3) ∧
    ({ exC3rel with confidence := some 80 } : Relationship).confidence =
      some (specAmendedConfidence exC3 { exC3rel with confidence := some 80 }) :=
  ⟨by decide,
   c3_confidence_amended exC3 { exC3rel with confidence := some 80 } (by decide)⟩

/-! ### Claim C4: the Cliente/Pedido scenario -/

/-- The profile set of the scenario: Cliente{ClienteID,Nome} and
Pedido{PedidoID,ClienteID,Valor}. -/
def exC4 : TablesInfo :=
  [("Cliente", { columns := ["ClienteID", "Nome"] }),
   ("Pedido", { columns := ["PedidoID", "ClienteID", "Valor"] })]

/-- The single relationship mined from exC4. -/
def exC4rel : Relationship :=
  { source_table := some "Pedido", source_column := some "ClienteID",
    target_table := some "Cliente",
    relationship_type := some "foreign_key_by_name",
    confidence := some 90,
    evidence := some "Nome da coluna ClienteID referencia tabela Cliente" }

/-- C4 counterexample: the claim says the final confidence of the mined
Pedido.ClienteID -> Cliente relationship is 1.0; the code computes 0.9
(0.8 naming base + 0.1 master bonus, and no ID bonus because the naming
detector stores the column under source_column, which
_calculate_confidence never reads). -/
theorem c4_scenario_counterexample :
    (mineRelationships exC4).map (fun r => r.confidence) = [some 90] ∧
    (90 : Int) ≠ 100 := by
  decide

/-- C4 amended: mining exC4 yields exactly one relationship, the naming
hit Pedido.ClienteID -> Cliente with relationship_type
foreign_key_by_name (the naming detector type string) and final
confidence 0.9, which is at least 0.8 (values in hundredths). -/
theorem c4_scenario_amended :
    mineRelationships exC4 = [exC4rel] ∧ (80 : Int) ≤ 90 := by
  decide

/-! ### Claim C5: row counting never negative -/

/-- C5 counterexample: the Python byte-stream fallback of
_count_csv_rows_fast returns -1 on an empty file (zero lines minus one
for the header), and schema_analyzer.count_rows returns -1 when the read
raises, so both claimed non-negativity statements fail. -/
theorem c5_row_count_counterexample :
    countCsvRowsFast false [] = -1 ∧ count_rows none = -1 := by
  decide

/-- C5 amended: the fast wc path clamps at zero and never returns a
negative count, and count_rows is non-negative on every successful read;
but the byte-stream fallback returns lines minus one with no clamp, which
is at least -1 and equals -1 exactly for a file with no lines, and
count_rows returns the sentinel -1 when the read raises (shown in the
counterexample). -/
theorem c5_row_count_amended :
    (∀ cs : List Char, 0 ≤ countCsvRowsFast true cs) ∧
    (∀ cs : List Char, 0 ≤ count_rows (some cs)) ∧
    (∀ cs : List Char, -1 ≤ countCsvRowsFast false cs ∧
      (countCsvRowsFast false cs = -1 ↔
        numLines (if cs.take 3 = bomMarker then cs.drop 3 else cs) = 0)) := by
  refine ⟨fun cs => ?_, fun cs => ?_, fun cs => ?_⟩
  · show (0 : Int) ≤ max ((cs.count '\n' : Int) - 1) 0
    exact le_max_right _ _
  · show (0 : Int) ≤
      (if (if cs.take 3 = bomMarker then cs.drop 3 else cs).count '\n' > 0
       then ((if cs.take 3 = bomMarker then cs.drop 3 else cs).count '\n' : Int) - 1
       else 0)
    split_ifs <;> omega
  · show -1 ≤ (numLines (if cs.take 3 = bomMarker then cs.drop 3 else cs) : Int) - 1 ∧ _
    constructor
    · omega
    · show (numLines (if cs.take 3 = bomMarker then cs.drop 3 else cs) : Int) - 1 = -1 ↔ _
      omega

/-! ### Claim C8: confidence bounds -/

/-- C8: every relationship in the merged mining output carries a
recomputed confidence inside the closed interval [0,1] (here [0,100] in
hundredths). -/
theorem c8_confidence_in_unit_interval (ti : TablesInfo) (r : Relationship)
    (hr : r ∈ mineRelationships ti) :
    ∃ c : Int, r.confidence = some c ∧ 0 ≤ c ∧ c ≤ 100 := by
  obtain ⟨r0, _, rfl⟩ := source_of_mem_mine hr
  refine ⟨calculateConfidence ti r0, rfl, ?_, ?_⟩
  · rw [calculateConfidence_eq_spec]
    simp only [specAmendedConfidence]
    refine le_min ?_ (by norm_num)
    split_ifs <;> norm_num
  · rw [calculateConfidence_eq_spec]
    simp only [specAmendedConfidence]
    exact min_le_right _ _

/-- The profile set used to witness C8. -/
def exC8 : TablesInfo :=
  [("Produto", { columns := ["Descricao"] }),
   ("Estoque", { columns := ["ProdutoID"] })]

/-- The single relationship mined from exC8. -/
def exC8rel : Relationship :=
  { source_table := some "Estoque", source_column := some "ProdutoID",
    target_table := some "Produto",
    relationship_type := some "foreign_key_by_name",
    confidence := some 90,
    evidence := some "Nome da coluna ProdutoID referencia tabela Produto" }

/-- Witness for C8 at the concrete profile set exC8. -/
theorem c8_confidence_in_unit_interval_witness :
    (exC8rel ∈ mineRelationships exC8) ∧
    ∃ c : Int, exC8rel.confidence = some c ∧ 0 ≤ c ∧ c ≤ 100 :=
  ⟨by decide, c8_confidence_in_unit_interval exC8 exC8rel (by decide)⟩

/-! ### Claim C6: suggest_joins -/

theorem mem_insertDesc {x z : JoinSuggestion} :
    ∀ {l : List JoinSuggestion}, z ∈ insertDesc x l ↔ z = x ∨ z ∈ l := by
  intro l
  induction l with
  | nil => simp [insertDesc]
  | cons y ys ih =>
    simp only [insertDesc]
    split_ifs with h
    · simp [List.mem_cons]
    · simp only [List.mem_cons, ih]
      tauto

theorem sorted_insertDesc {x : JoinSuggestion} {l : List JoinSuggestion}
    (hl : l.Sorted (fun a b => b.confidence ≤ a.confidence)) :
    (insertDesc x l).Sorted (fun a b => b.confidence ≤ a.confidence) := by
  induction l with
  | nil => simp [insertDesc]
  | cons y ys ih =>
    rw [List.sorted_cons] at hl
    simp only [insertDesc]
    split_ifs with h
    · rw [List.sorted_cons]
      refine ⟨?_, List.sorted_cons.2 hl⟩
      intro b hb
      rcases List.mem_cons.1 hb with rfl | hb
      · exact h
      · exact le_trans (hl.1 b hb) h
    · rw [List.sorted_cons]
      refine ⟨?_, ih hl.2⟩
      intro b hb
      rcases mem_insertDesc.1 hb with rfl | hb
      · exact le_of_lt (lt_of_not_le h)
      · exact hl.1 b hb

theorem sorted_sortByConfidenceDesc (l : List JoinSuggestion) :
    (sortByConfidenceDesc l).Sorted (fun a b => b.confidence ≤ a.confidence) := by
  induction l with
  | nil => simp [sortByConfidenceDesc]
  | cons x xs ih => exact sorted_insertDesc ih

theorem mem_sortByConfidenceDesc {z : JoinSuggestion} :
    ∀ {l : List JoinSuggestion}, z ∈ sortByConfidenceDesc l ↔ z ∈ l := by
  intro l
  induction l with
  | nil => simp [sortByConfidenceDesc]
  | cons x xs ih => simp [sortByConfidenceDesc, mem_insertDesc, ih]

theorem jtype_of_mem_directSuggestions {rels : List Relationship}
    {t1 t2 : String} {s : JoinSuggestion}
    (h : s ∈ directSuggestions rels t1 t2) : s.jtype = "direct" := by
  simp only [directSuggestions, List.mem_filterMap] at h
  obtain ⟨rel, _, h⟩ := h
  split_ifs at h with h1
  obtain rfl := Option.some.inj h
  rfl

/-- The relationship list of the scenario: edges ItemPedido -> Pedido and
Pedido -> Cliente, no direct edge between Cliente and ItemPedido. -/
def exC6rels : List Relationship :=
  [{ source_table := some "ItemPedido", target_table := some "Pedido",
     relationship_column := some "PedidoID",
     relationship_type := some "foreign_key_by_name", confidence := some 90 },
   { source_table := some "Pedido", target_table := some "Cliente",
     relationship_column := some "ClienteID",
     relationship_type := some "foreign_key_by_name", confidence := some 90 }]

/-- C6 counterexample: the claim says suggest_joins("Cliente",
"ItemPedido") on this graph returns exactly one indirect suggestion with
path ItemPedido -> Pedido -> Cliente. The path search follows edge
direction from the first argument, Cliente has no outgoing edge, and the
call returns the empty list. -/
theorem c6_suggest_joins_counterexample :
    directSuggestions exC6rels "Cliente" "ItemPedido" = [] ∧
    hasEdge (buildRelationshipGraph exC6rels) "ItemPedido" "Pedido" = true ∧
    hasEdge (buildRelationshipGraph exC6rels) "Pedido" "Cliente" = true ∧
    suggestJoins exC6rels (buildRelationshipGraph exC6rels)
      "Cliente" "ItemPedido" = [] := by
  decide

/-- C6 amended: suggest_joins always returns suggestions sorted by
descending confidence; whenever a direct relationship exists between the
two tables every returned suggestion is direct; and the indirect search
only follows directed simple paths of length 2 from the first argument
to the second, so on the scenario graph the query in the direction
suggest_joins("ItemPedido", "Cliente") returns exactly the one indirect
suggestion ItemPedido -> Pedido -> Cliente with fixed confidence 0.5. -/
theorem c6_suggest_joins_amended :
    (∀ (rels : List Relationship) (g : MinerGraph) (t1 t2 : String),
      (suggestJoins rels g t1 t2).Sorted (fun a b => b.confidence ≤ a.confidence)) ∧
    (∀ (rels : List Relationship) (g : MinerGraph) (t1 t2 : String),
      directSuggestions rels t1 t2 ≠ [] →
      ∀ s ∈ suggestJoins rels g t1 t2, s.jtype = "direct") ∧
    suggestJoins exC6rels (buildRelationshipGraph exC6rels)
      "ItemPedido" "Cliente" =
      [{ jtype := "indirect", confidence := 50,
         path := some "ItemPedido -> Pedido -> Cliente",
         suggestion := some "Junte ItemPedido com Pedido, depois com Cliente" }] := by
  refine ⟨?_, ?_, by decide⟩
  · intro rels g t1 t2
    exact sorted_sortByConfidenceDesc _
  · intro rels g t1 t2 hne s hs
    have hs' : s ∈ sortByConfidenceDesc
        (if (directSuggestions rels t1 t2).isEmpty then
          indirectSuggestions g t1 t2 else directSuggestions rels t1 t2) := hs
    rw [mem_sortByConfidenceDesc] at hs'
    rw [if_neg (by simpa using hne)] at hs'
    exact jtype_of_mem_directSuggestions hs'

/-- Witness for the amended C6 theorem: the direct query ItemPedido vs
Pedido has a direct relationship and every returned suggestion is
direct. -/
theorem c6_suggest_joins_amended_witness :
    (directSuggestions exC6rels "ItemPedido" "Pedido" ≠ [] ∧
     ({ jtype := "direct", confidence := 90, column := some "PedidoID",
        direction := some "ItemPedido -> Pedido" } : JoinSuggestion) ∈
       suggestJoins exC6rels (buildRelationshipGraph exC6rels)
         "ItemPedido" "Pedido") ∧
    ({ jtype := "direct", confidence := 90, column := some "PedidoID",
       direction := some "ItemPedido -> Pedido" } : JoinSuggestion).jtype =
      "direct" :=
  ⟨⟨by decide, by decide⟩,
   c6_suggest_joins_amended.2.1 exC6rels (buildRelationshipGraph exC6rels)
     "ItemPedido" "Pedido" (by decide) _ (by decide)⟩

/-! ### Claim C7: build_graph -/

/-- A profile set with one table and a relationship between two tables
absent from the profiles. -/
def exC7ti : TablesInfo := [("A", {})]

/-- A qualifying relationship whose endpoints are not profiled. -/
def exC7rels : List Relationship :=
  [{ source_table := some "B", target_table := some "C",
     relationship_column := some "X",
     relationship_type := some "erp_pattern", confidence := some 90 }]

/-- C7 counterexample: the claim says the node set is exactly the
profiled table names. networkx add_edge also inserts missing endpoints,
so the qualifying relationship B -> C adds the unprofiled nodes B and C
(without a size attribute). -/
theorem c7_build_graph_counterexample :
    (buildGraph exC7ti exC7rels 50).nodes =
      [(some "A", some 0), (some "B", none), (some "C", none)] ∧
    exC7ti.map Prod.fst = ["A"] ∧
    ¬ (buildGraph exC7ti exC7rels 50).nodes.map Prod.fst =
        exC7ti.map (fun p => some p.1) := by
  decide

theorem dgInit {ti : TablesInfo} :
    ∀ g : DiagramGraph, (ti.map Prod.fst).Nodup →
    (∀ p ∈ ti, ∀ q ∈ g.nodes, q.1 ≠ some p.1) →
    ti.foldl (fun g p => dgAddNodeSized g (some p.1) p.2.total_rows) g =
      { nodes := g.nodes ++ ti.map (fun p => (some p.1, some p.2.total_rows)),
        edges := g.edges } := by
  induction ti with
  | nil => intro g _ _; simp
  | cons p ps ih =>
    intro g hnd hfresh
    simp only [List.foldl_cons]
    have hany : ¬ (g.nodes.any fun q => q.1 == some p.1) = true := by
      intro hc
      obtain ⟨q, hq, hbq⟩ := List.any_eq_true.1 hc
      exact hfresh p (List.mem_cons_self _ _) q hq (by simpa using hbq)
    have hadd : dgAddNodeSized g (some p.1) p.2.total_rows =
        { nodes := g.nodes ++ [(some p.1, some p.2.total_rows)],
          edges := g.edges } := by
      unfold dgAddNodeSized
      rw [if_neg hany]
    rw [hadd, ih _ ?_ ?_]
    · simp
    · exact (List.nodup_cons.1 (by simpa using hnd)).2
    · intro p' hp' q hq
      rcases List.mem_append.1 hq with hq | hq
      · exact hfresh p' (List.mem_cons_of_mem _ hp') q hq
      · rw [List.mem_singleton.1 hq]
        intro hc
        have hps : p.1 ∈ ps.map Prod.fst :=
          Option.some.inj hc ▸ List.mem_map.2 ⟨p', hp', rfl⟩
        exact (List.nodup_cons.1 (by simpa using hnd)).1 hps

theorem dgEdgesFold :
    ∀ (rels : List Relationship) (g : DiagramGraph) (minC : Int),
    (∀ r ∈ rels, minC ≤ r.confidence.getD 0 →
      (∃ q ∈ g.nodes, q.1 = r.source_table) ∧
      (∃ q ∈ g.nodes, q.1 = r.target_table)) →
    (∀ r ∈ rels, minC ≤ r.confidence.getD 0 →
      ∀ e ∈ g.edges, ¬(e.1 = r.source_table ∧ e.2.1 = r.target_table)) →
    ((rels.filter fun r => decide (minC ≤ r.confidence.getD 0)).map relKey).Nodup →
    rels.foldl
      (fun g rel =>
        if minC ≤ rel.confidence.getD 0 then
          dgAddEdge g rel.source_table rel.target_table
            ⟨rel.relationship_column.getD "", rel.confidence.getD 0,
             rel.relationship_type.getD ""⟩
        else g) g =
      { nodes := g.nodes,
        edges := g.edges ++
          (rels.filter fun r => decide (minC ≤ r.confidence.getD 0)).map
            (fun r => (r.source_table, r.target_table,
              ⟨r.relationship_column.getD "", r.confidence.getD 0,
               r.relationship_type.getD ""⟩)) } := by
  intro rels
  induction rels with
  | nil => intro g minC _ _ _; simp
  | cons r rs ih =>
    intro g minC hin hfresh hdist
    simp only [List.foldl_cons]
    by_cases hq : minC ≤ r.confidence.getD 0
    · rw [if_pos hq]
      have hsrc := (hin r (List.mem_cons_self _ _) hq).1
      have htgt := (hin r (List.mem_cons_self _ _) hq).2
      have h1 : (g.nodes.any fun q => q.1 == r.source_table) = true := by
        obtain ⟨q, hq1, hq2⟩ := hsrc
        exact List.any_eq_true.2 ⟨q, hq1, by simp [hq2]⟩
      have h2 : (g.nodes.any fun q => q.1 == r.target_table) = true := by
        obtain ⟨q, hq1, hq2⟩ := htgt
        exact List.any_eq_true.2 ⟨q, hq1, by simp [hq2]⟩
      have e1 : dgAddNodePlain g r.source_table = g := by
        unfold dgAddNodePlain
        rw [if_pos h1]
      have hedge : ¬ (g.edges.any fun e =>
          e.1 == r.source_table && e.2.1 == r.target_table) = true := by
        intro hc
        obtain ⟨e, he, hbe⟩ := List.any_eq_true.1 hc
        simp only [Bool.and_eq_true, beq_iff_eq] at hbe
        exact hfresh r (List.mem_cons_self _ _) hq e he hbe
      have hstep : dgAddEdge g r.source_table r.target_table
          ⟨r.relationship_column.getD "", r.confidence.getD 0,
           r.relationship_type.getD ""⟩ =
          { nodes := g.nodes,
            edges := g.edges ++ [(r.source_table, r.target_table,
              ⟨r.relationship_column.getD "", r.confidence.getD 0,
               r.relationship_type.getD ""⟩)] } := by
        unfold dgAddEdge
        rw [e1]
        unfold dgAddNodePlain
        rw [if_pos h2, if_neg hedge]
      have hfilter : (r :: rs).filter
          (fun r => decide (minC ≤ r.confidence.getD 0)) =
          r :: rs.filter (fun r => decide (minC ≤ r.confidence.getD 0)) := by
        simp [List.filter_cons, hq]
      have hkey : ∀ r' ∈ rs, minC ≤ r'.confidence.getD 0 →
          ¬ relKey r' = relKey r := by
        intro r' hr' hq' hk
        rw [hfilter] at hdist
        simp only [List.map_cons, List.nodup_cons] at hdist
        exact hdist.1 (hk ▸ List.mem_map.2
          ⟨r', List.mem_filter.2 ⟨hr', by simpa using hq'⟩, rfl⟩)
      rw [hstep, ih _ minC ?_ ?_ ?_]
      · rw [hfilter]
        simp
      · intro r' hr' hq'
        exact hin r' (List.mem_cons_of_mem _ hr') hq'
      · intro r' hr' hq' e he
        rcases List.mem_append.1 he with he | he
        · exact hfresh r' (List.mem_cons_of_mem _ hr') hq' e he
        · rw [List.mem_singleton.1 he]
          rintro ⟨hs, ht⟩
          exact hkey r' hr' hq' (Prod.ext hs.symm ht.symm)
      · rw [hfilter] at hdist
        exact (List.nodup_cons.1 (by simpa using hdist)).2
    · rw [if_neg hq]
      have hfilter : (r :: rs).filter
          (fun r => decide (minC ≤ r.confidence.getD 0)) =
          rs.filter (fun r => decide (minC ≤ r.confidence.getD 0)) := by
        simp [List.filter_cons, hq]
      rw [ih _ minC ?_ ?_ ?_]
      · rw [hfilter]
      · intro r' hr' hq'
        exact hin r' (List.mem_cons_of_mem _ hr') hq'
      · intro r' hr' hq'
        exact hfresh r' (List.mem_cons_of_mem _ hr') hq'
      · rw [hfilter] at hdist
        exact hdist

/-- C7 amended: when the profiled names are distinct and every qualifying
relationship joins two profiled tables with pairwise-distinct
(source, target) pairs, build_graph produces nodes exactly the profiled
table names with size attribute total_rows, and edges exactly the
relationships with confidence at or above min_confidence, each carrying
its column, confidence and type. (In general add_edge additionally
inserts unprofiled endpoints as attribute-less nodes, as the
counterexample shows, and a repeated pair keeps only the last
attributes.) -/
theorem c7_build_graph_amended (ti : TablesInfo) (rels : List Relationship)
    (minC : Int)
    (h1 : (ti.map Prod.fst).Nodup)
    (h2 : ∀ r ∈ rels, minC ≤ r.confidence.getD 0 →
      r.source_table ∈ ti.map (fun p => some p.1) ∧
      r.target_table ∈ ti.map (fun p => some p.1))
    (h3 : ((rels.filter fun r => decide (minC ≤ r.confidence.getD 0)).map
      relKey).Nodup) :
    (buildGraph ti rels minC).nodes =
      ti.map (fun p => (some p.1, some p.2.total_rows)) ∧
    (buildGraph ti rels minC).edges =
      (rels.filter fun r => decide (minC ≤ r.confidence.getD 0)).map
        (fun r => (r.source_table, r.target_table,
          ⟨r.relationship_column.getD "", r.confidence.getD 0,
           r.relationship_type.getD ""⟩)) := by
  have hinit := dgInit {} h1 (by intro p _ q hq; simp at hq)
  have hinit' : ti.foldl (fun g p => dgAddNodeSized g (some p.1) p.2.total_rows)
      {} = { nodes := ti.map (fun p => (some p.1, some p.2.total_rows)),
             edges := [] } := by
    rw [hinit]
    simp
  have hnodes : ∀ t, t ∈ ti.map (fun p => some p.1) →
      ∃ q ∈ ti.map (fun p => (some p.1, some p.2.total_rows)), q.1 = t := by
    intro t ht
    obtain ⟨p, hp, hpt⟩ := List.mem_map.1 ht
    exact ⟨(some p.1, some p.2.total_rows), List.mem_map.2 ⟨p, hp, rfl⟩, hpt⟩
  have hfold := dgEdgesFold rels
    { nodes := ti.map (fun p => (some p.1, some p.2.total_rows)), edges := [] }
    minC
    (by
      intro r hr hq
      exact ⟨hnodes _ (h2 r hr hq).1, hnodes _ (h2 r hr hq).2⟩)
    (by intro r _ _ e he; simp at he)
    h3
  simp only [buildGraph]
  rw [hinit', hfold]
  simp

/-- The profile set used to witness the amended C7 theorem. -/
def exC7wti : TablesInfo :=
  [("Cliente", { columns := ["Nome"], total_rows := 10 }),
   ("Pedido", { columns := ["ClienteID"], total_rows := 200 })]

/-- The relationship list used to witness the amended C7 theorem. -/
def exC7wrels : List Relationship :=
  [{ source_table := some "Pedido", target_table := some "Cliente",
     relationship_column := some "ClienteID",
     relationship_type := some "foreign_key_by_name", confidence := some 90 },
   { source_table := some "Cliente", target_table := some "Pedido",
     relationship_column := some "Fatura",
     relationship_type := some "erp_pattern", confidence := some 40 }]

/-- Witness for the amended C7 theorem at concrete profiles, one
qualifying relationship and one below the 0.5 threshold. -/
theorem c7_build_graph_amended_witness :
    ((exC7wti.map Prod.fst).Nodup ∧
     ((exC7wrels.filter fun r => decide (50 ≤ r.confidence.getD 0)).map
       relKey).Nodup) ∧
    ((buildGraph exC7wti exC7wrels 50).nodes =
      exC7wti.map (fun p => (some p.1, some p.2.total_rows)) ∧
    (buildGraph exC7wti exC7wrels 50).edges =
      (exC7wrels.filter fun r => decide (50 ≤ r.confidence.getD 0)).map
        (fun r => (r.source_table, r.target_table,
          ⟨r.relationship_column.getD "", r.confidence.getD 0,
           r.relationship_type.getD ""⟩))) :=
  ⟨⟨by decide, by decide⟩,
   c7_build_graph_amended exC7wti exC7wrels 50 (by decide) (by decide)
     (by decide)⟩

/-! ### Claim C9: filter application -/

/-- The claim scopes filters to three predicate shapes: the tuple shape
is the 2-tuple range. -/
def wfCond {V : Type} : FilterCond V → Prop
  | .tup l => l.length = 2
  | .lst _ => True
  | .scalar _ => True

/-- The predicate semantics exactly as the claim words them: a 2-tuple
(min, max) is the inclusive range, a list is set-membership, a scalar is
equality. -/
def specFilterSatisfies {V : Type} [LinearOrder V] : FilterCond V → V → Prop
  | .tup l, v =>
    match l with
    | [lo, hi] => lo ≤ v ∧ v ≤ hi
    | _ => True
  | .lst vs, v => v ∈ vs
  | .scalar s, v => v = s

theorem condKeep_iff_spec {V : Type} [LinearOrder V] (c : FilterCond V) (v : V)
    (hwf : wfCond c) : condKeep c v = true ↔ specFilterSatisfies c v := by
  cases c with
  | tup l =>
    rcases l with _ | ⟨lo, ls⟩
    · simp [wfCond] at hwf
    rcases ls with _ | ⟨hi, ls'⟩
    · simp [wfCond] at hwf
    rcases ls' with _ | ⟨x, ls''⟩
    · simp [condKeep, specFilterSatisfies]
    · simp [wfCond] at hwf
  | lst vs => simp [condKeep, specFilterSatisfies]
  | scalar s => simp [condKeep, specFilterSatisfies]

theorem mem_applyFilters_rows {V : Type} [LinearOrder V] :
    ∀ (filters : List (String × FilterCond V)) (df : DataFrame V)
      (r : String → V),
      r ∈ (applyFilters df filters).rows ↔
        r ∈ df.rows ∧ ∀ f ∈ filters, f.1 ∈ df.cols →
          condKeep f.2 (r f.1) = true := by
  intro filters
  induction filters with
  | nil => intro df r; simp [applyFilters]
  | cons f fs ih =>
    intro df r
    have hstep : applyFilters df (f :: fs) = applyFilters
        (if f.1 ∈ df.cols then
          { df with rows := df.rows.filter fun r => condKeep f.2 (r f.1) }
         else df) fs := rfl
    rw [hstep]
    by_cases h : f.1 ∈ df.cols
    · rw [if_pos h, ih]
      constructor
      · rintro ⟨hr, hrest⟩
        have hm := List.mem_filter.1 hr
        refine ⟨hm.1, ?_⟩
        intro f' hf'
        rcases List.mem_cons.1 hf' with rfl | hf'
        · intro _; exact hm.2
        · exact hrest f' hf'
      · rintro ⟨hr, hall⟩
        refine ⟨List.mem_filter.2 ⟨hr, hall f (List.mem_cons_self _ _) h⟩, ?_⟩
        intro f' hf'
        exact hall f' (List.mem_cons_of_mem _ hf')
    · rw [if_neg h, ih]
      constructor
      · rintro ⟨hr, hrest⟩
        refine ⟨hr, ?_⟩
        intro f' hf'
        rcases List.mem_cons.1 hf' with rfl | hf'
        · intro hc; exact absurd hc h
        · exact hrest f' hf'
      · rintro ⟨hr, hall⟩
        exact ⟨hr, fun f' hf' => hall f' (List.mem_cons_of_mem _ hf')⟩

/-- C9: _apply_filters retains exactly the rows satisfying every
well-shaped predicate whose column exists in the dataframe (2-tuple:
inclusive range; list: membership; scalar: equality), and a predicate on
a non-existent column is silently skipped. -/
theorem c9_apply_filters {V : Type} [LinearOrder V] (df : DataFrame V)
    (filters : List (String × FilterCond V)) (r : String → V)
    (hwf : ∀ f ∈ filters, wfCond f.2) :
    r ∈ (applyFilters df filters).rows ↔
      r ∈ df.rows ∧ ∀ f ∈ filters, f.1 ∈ df.cols →
        specFilterSatisfies f.2 (r f.1) := by
  rw [mem_applyFilters_rows]
  constructor
  · rintro ⟨hr, hall⟩
    exact ⟨hr, fun f hf hc =>
      (condKeep_iff_spec _ _ (hwf f hf)).1 (hall f hf hc)⟩
  · rintro ⟨hr, hall⟩
    exact ⟨hr, fun f hf hc =>
      (condKeep_iff_spec _ _ (hwf f hf)).2 (hall f hf hc)⟩

/-- A concrete row for the C9 witness. -/
def exC9row : String → Int := fun s => if s = "a" then 5 else 7

/-- A second concrete row, outside the filter range. -/
def exC9row2 : String → Int := fun s => if s = "a" then 50 else 7

/-- A concrete dataframe for the C9 witness. -/
def exC9df : DataFrame Int := { cols := ["a", "b"], rows := [exC9row, exC9row2] }

/-- Concrete filters: a range on a, a membership on b, and an equality on
a column that does not exist. -/
def exC9filters : List (String × FilterCond Int) :=
  [("a", .tup [1, 10]), ("b", .lst [7, 8]), ("zz", .scalar 0)]

/-- Witness for C9 at a concrete dataframe and filter set. -/
theorem c9_apply_filters_witness :
    (∀ f ∈ exC9filters, wfCond f.2) ∧
    (exC9row ∈ (applyFilters exC9df exC9filters).rows ↔
      exC9row ∈ exC9df.rows ∧ ∀ f ∈ exC9filters, f.1 ∈ exC9df.cols →
        specFilterSatisfies f.2 (exC9row f.1)) :=
  ⟨by intro f hf; fin_cases hf <;> simp [wfCond],
   c9_apply_filters exC9df exC9filters exC9row
     (by intro f hf; fin_cases hf <;> simp [wfCond])⟩

/-! ### Claim C10: all-null columns detect as boolean -/

/-- C10: when the column name matches no id/date/currency/quantity
keyword pattern and the non-empty sample contains only nulls, the set of
distinct non-null values is empty, passes the boolean-vocabulary subset
test, and the function returns boolean. -/
theorem c10_all_null_boolean (toNumericOk : String → Bool) (name : String)
    (sample : List (Option String))
    (h1 : ∀ p ∈ idPatterns, pyIn p (strToLower name) = false)
    (h2 : ∀ p ∈ datePatterns, pyIn p (strToLower name) = false)
    (h3 : ∀ p ∈ moneyPatterns, pyIn p (strToLower name) = false)
    (h4 : ∀ p ∈ qtyPatterns, pyIn p (strToLower name) = false)
    (h5 : sample ≠ [])
    (h6 : ∀ v ∈ sample, v = none) :
    detectColumnSemanticType toNumericOk name sample = "boolean" := by
  have ha1 : (idPatterns.any fun p => pyIn p (strToLower name)) = false := by
    rw [List.any_eq_false]
    intro p hp
    simp [h1 p hp]
  have ha2 : (datePatterns.any fun p => pyIn p (strToLower name)) = false := by
    rw [List.any_eq_false]
    intro p hp
    simp [h2 p hp]
  have ha3 : (moneyPatterns.any fun p => pyIn p (strToLower name)) = false := by
    rw [List.any_eq_false]
    intro p hp
    simp [h3 p hp]
  have ha4 : (qtyPatterns.any fun p => pyIn p (strToLower name)) = false := by
    rw [List.any_eq_false]
    intro p hp
    simp [h4 p hp]
  have hnn : sample.filterMap id = [] := by
    rw [List.filterMap_eq_nil_iff]
    intro v hv
    rw [h6 v hv]
    rfl
  have hlen : sample.length > 0 := List.length_pos.2 h5
  simp only [detectColumnSemanticType, ha1, ha2, ha3, ha4, Bool.false_eq_true,
    if_false, hnn]
  rw [if_pos hlen, if_pos (by simp [uniqueVals])]

/-- Witness for C10 at a concrete column name and all-null sample. -/
theorem c10_all_null_boolean_witness :
    (("Observacoes" : String) ≠ "" ∧ ([none, none] : List (Option String)) ≠ []) ∧
    detectColumnSemanticType (fun _ => false) "Observacoes" [none, none] =
      "boolean" :=
  ⟨⟨by decide, by decide⟩,
   c10_all_null_boolean (fun _ => false) "Observacoes" [none, none]
     (by decide) (by decide) (by decide) (by decide) (by decide) (by decide)⟩

end AnalyticsERP
